import Mathlib

/-!
Verification of the convolution / pooling operator core of
`src/MachineLearning/CNTKComputationNetworkLib/ConvolutionalNodes.h`.

Shallow embedding conventions:
* `size_t` values become `Nat`; the one place where unsigned wraparound
  matters (the `batchSize = 0` division hazard, claim C9) is treated by
  reasoning about the divisor being zero.
* Matrices are embedded as total functions `Nat → Nat → Int` (column-major
  access `M row col`); the dimensions a multiply iterates over are passed
  explicitly, exactly as the C++ code derives them from the layouts.
* The matrix primitives implemented outside this repository (in Matrix.h:
  `MultiplyAndAdd`, `AssignPackedConvolutionInput`, `UnpackConvolutionInput`,
  the pooling kernels, `ConvolveAndWeightedAdd`) are capability parameters
  or thin wrappers modelled from the spec where their semantics matter.
-/

namespace CNTKConv

/-- Image layout descriptor `ImageLayoutWHC(width, height, numChannels)`. -/
structure ImageLayout where
  width : Nat
  height : Nat
  numChannels : Nat
deriving DecidableEq, Repr

/-- The configuration state of a `ConvolutionNode` that the numeric passes
read: kernel size, stride, padding flag, memory budget, the inferred input
sample layout (`m_inputSampleLayout`) and output sample layout
(`m_sampleLayout`). -/
structure ConvConfig where
  kernelWidth : Nat
  kernelHeight : Nat
  horizontalSubsample : Nat
  verticalSubsample : Nat
  zeroPadding : Bool
  maxTempMemSizeInSamples : Nat
  inputLayout : ImageLayout
  sampleLayout : ImageLayout
deriving DecidableEq, Repr

/-- `maxTempMemSizeInSamples == 0 ? batchSize : maxTempMemSizeInSamples`
(the budget resolution performed at the top of `ForwardPropS`,
`BackpropToOverWeight` and `BackpropToOverInputFeature`). -/
def resolvedMaxTempMemSamples (m batchSize : Nat) : Nat :=
  if m = 0 then batchSize else m

/-- `subBatchSize = min(batchSize, maxTempMemSizeInSamples)` after budget
resolution, as computed identically in all three passes. -/
def subBatchSize (batchSize m : Nat) : Nat :=
  min batchSize (resolvedMaxTempMemSamples m batchSize)

/-- `numSubBatches = (batchSize + subBatchSize - 1) / subBatchSize`, as
computed identically in all three passes.  In C++ this is a `size_t`
division; over `Nat` the formula agrees whenever `subBatchSize > 0`
(which holds exactly when `batchSize > 0`, see claim C9). -/
def numSubBatches (batchSize m : Nat) : Nat :=
  (batchSize + subBatchSize batchSize m - 1) / subBatchSize batchSize m

/-- `startSampleID = i * subBatchSize` for sub-batch `i`. -/
def subBatchStart (batchSize m i : Nat) : Nat :=
  i * subBatchSize batchSize m

/-- `endSampleID = min(batchSize, startSampleID + subBatchSize)`. -/
def subBatchEnd (batchSize m i : Nat) : Nat :=
  min batchSize (subBatchStart batchSize m i + subBatchSize batchSize m)

/-- `smallBatchSize = endSampleID - startSampleID`. -/
def smallBatchSize (batchSize m i : Nat) : Nat :=
  subBatchEnd batchSize m i - subBatchStart batchSize m i

/-! ## Shape inference and validation -/

/-- Validation / logic errors raised by the node.  The C++ code formats
descriptive strings via `InvalidArgument` and `LogicError`; the operand
data interpolated into the `LogicError` messages is carried structurally
so that theorems can speak about it. -/
inductive ValidationError where
  | invalidArgument (msg : String)
  | weightDimsError (operandName : String) (expectedRows expectedCols : Nat)
  | inputDimsError (nodeName : String) (expectedDim : Nat)
deriving DecidableEq, Repr

/-- Whether an `Except` result is an error. -/
def isError {ε α : Type} : Except ε α → Bool
  | .error _ => true
  | .ok _ => false

/-- `ConvolutionNode::InferImageDimsFromInputs` (lines 323-344): rejects
inputs smaller than the kernel, then computes the output sample layout.
With `zeroPadding`, the adjustment is `kernel % 2` in each dimension;
without it, the full kernel extent is subtracted.  The output channel
count is whatever `m_sampleLayout` already carries (the configured
output channels). -/
def ConvolutionInferImageDims (cfg : ConvConfig) (inLayout : ImageLayout) :
    Except ValidationError ImageLayout :=
  if inLayout.width < cfg.kernelWidth ∨ inLayout.height < cfg.kernelHeight then
    .error (.invalidArgument "inputWidth must >= kernelWidth and inputHeight must >= kernelHeight.")
  else if cfg.zeroPadding then
    .ok ⟨(inLayout.width - cfg.kernelWidth % 2) / cfg.horizontalSubsample + 1,
         (inLayout.height - cfg.kernelHeight % 2) / cfg.verticalSubsample + 1,
         cfg.sampleLayout.numChannels⟩
  else
    .ok ⟨(inLayout.width - cfg.kernelWidth) / cfg.horizontalSubsample + 1,
         (inLayout.height - cfg.kernelHeight) / cfg.verticalSubsample + 1,
         cfg.sampleLayout.numChannels⟩

/-- `PoolingNodeBase` configuration state: window size and stride. -/
structure PoolConfig where
  windowWidth : Nat
  windowHeight : Nat
  horizontalSubsample : Nat
  verticalSubsample : Nat
deriving DecidableEq, Repr

/-- `PoolingNodeBase::InferImageDimsFromInputs` (lines 497-507): rejects
inputs smaller than the window, then computes the output layout with the
un-padded formula, preserving the input channel count. -/
def PoolingInferImageDims (cfg : PoolConfig) (inLayout : ImageLayout) :
    Except ValidationError ImageLayout :=
  if inLayout.width < cfg.windowWidth ∨ inLayout.height < cfg.windowHeight then
    .error (.invalidArgument "PoolingNodeBase: inputWidth must >= windowWidth and inputHeight must >= windowHeight.")
  else
    .ok ⟨(inLayout.width - cfg.windowWidth) / cfg.horizontalSubsample + 1,
         (inLayout.height - cfg.windowHeight) / cfg.verticalSubsample + 1,
         inLayout.numChannels⟩

/-- `ConvolutionNode::Validate` (lines 294-321).  Inputs beyond the node
configuration: the input sample layout obtained by
`InferImageDimsFromInput(1)`, the operand name of input 0 (the weight)
and of the node, the weight operand dimensions, the input operand
dimensions, and the validation-pass flag.  `ValidateInferInputDims` (in
the node framework, outside this repository) is modelled from the spec:
when the weight value has no elements its dimensions are set to the
requested ones; when the input has zero rows its row count is set to the
requested sample dimension.  The returned pair is the `SetDims` call. -/
def ConvolutionValidate (cfg : ConvConfig) (inLayout : ImageLayout)
    (weightName nodeName : String)
    (weightRows weightCols : Nat) (input1Rows input1Cols : Nat)
    (isFinalValidationPass : Bool) :
    Except ValidationError (Nat × Nat) :=
  if cfg.horizontalSubsample > cfg.kernelWidth ∨ cfg.verticalSubsample > cfg.kernelHeight then
    .error (.invalidArgument "In ConvolutionNode horizontalSubsample must <= kernelWidth and verticalSubsample must <= kernelHeight.")
  else
    match ConvolutionInferImageDims cfg inLayout with
    | .error e => .error e
    | .ok outLayout =>
      let weightColsExpected := cfg.kernelWidth * cfg.kernelHeight * inLayout.numChannels
      let wdims : Nat × Nat :=
        if weightRows * weightCols = 0 then (cfg.sampleLayout.numChannels, weightColsExpected)
        else (weightRows, weightCols)
      if isFinalValidationPass ∧ (wdims.2 ≠ weightColsExpected ∨ wdims.1 ≠ cfg.sampleLayout.numChannels) then
        .error (.weightDimsError weightName cfg.sampleLayout.numChannels weightColsExpected)
      else
        let inputDim := inLayout.width * inLayout.height * inLayout.numChannels
        let i1rows := if input1Rows = 0 then inputDim else input1Rows
        if isFinalValidationPass ∧ i1rows ≠ inputDim then
          .error (.inputDimsError nodeName inputDim)
        else
          .ok (outLayout.width * outLayout.height * outLayout.numChannels, input1Cols)

/-- `PoolingNodeBase::Validate` (lines 475-495), with the same modelling
conventions as `ConvolutionValidate`. -/
def PoolingValidate (cfg : PoolConfig) (inLayout : ImageLayout)
    (nodeName : String) (input0Rows input0Cols : Nat)
    (isFinalValidationPass : Bool) :
    Except ValidationError (Nat × Nat) :=
  if cfg.horizontalSubsample > cfg.windowWidth ∨ cfg.verticalSubsample > cfg.windowHeight then
    .error (.invalidArgument "PoolingNodeBase: horizontalSubsample must <= windowWidth and verticalSubsample must <= windowHeight.")
  else
    match PoolingInferImageDims cfg inLayout with
    | .error e => .error e
    | .ok outLayout =>
      let inputSizePerSample := inLayout.width * inLayout.height * inLayout.numChannels
      let outputSizePerSample := outLayout.width * outLayout.height * outLayout.numChannels
      let i0rows := if input0Rows = 0 then inputSizePerSample else input0Rows
      if isFinalValidationPass ∧ i0rows ≠ inputSizePerSample then
        .error (.inputDimsError nodeName inputSizePerSample)
      else
        .ok (outputSizePerSample, input0Cols)

/-! ## Serialization (Save / Load) -/

/-- One field written to the model file stream; `size_t` fields and `bool`
fields are typed separately, as the C++ stream operators are. -/
inductive SerializedField where
  | fnat (n : Nat)
  | fbool (b : Bool)
deriving DecidableEq, Repr

/-- The serializable parameters of a `ConvolutionNode`.  `outputChannels`
is `m_sampleLayout.GetNumChannels()`, which `Save` writes and `Load`
restores into a fresh `ImageLayoutWHC(1, 1, outputChannels)`. -/
structure ConvolutionNodeParams where
  kernelWidth : Nat
  kernelHeight : Nat
  horizontalSubsample : Nat
  verticalSubsample : Nat
  outputChannels : Nat
  zeroPadding : Bool
  maxTempMemSizeInSamples : Nat
deriving DecidableEq, Repr

/-- `ConvolutionNode::Save` (lines 67-73): the fields appended to the
stream after `Base::Save`, in program order. -/
def ConvolutionSaveFields (p : ConvolutionNodeParams) : List SerializedField :=
  [.fnat p.kernelWidth, .fnat p.kernelHeight,
   .fnat p.horizontalSubsample, .fnat p.verticalSubsample,
   .fnat p.outputChannels,
   .fbool p.zeroPadding, .fnat p.maxTempMemSizeInSamples]

/-- Reading one `size_t` field from the stream. -/
def readNatField : List SerializedField → Option (Nat × List SerializedField)
  | .fnat n :: rest => some (n, rest)
  | _ => none

/-- Reading one `bool` field from the stream. -/
def readBoolField : List SerializedField → Option (Bool × List SerializedField)
  | .fbool b :: rest => some (b, rest)
  | _ => none

/-- `ConvolutionNode::Load` (lines 75-83): the fields consumed from the
stream after `Base::Load`, in program order. -/
def ConvolutionLoadFields (l : List SerializedField) :
    Option (ConvolutionNodeParams × List SerializedField) := do
  let (kernelWidth, l) ← readNatField l
  let (kernelHeight, l) ← readNatField l
  let (horizontalSubsample, l) ← readNatField l
  let (verticalSubsample, l) ← readNatField l
  let (outputChannels, l) ← readNatField l
  let (zeroPadding, l) ← readBoolField l
  let (maxTempMemSizeInSamples, l) ← readNatField l
  some (⟨kernelWidth, kernelHeight, horizontalSubsample, verticalSubsample,
         outputChannels, zeroPadding, maxTempMemSizeInSamples⟩, l)

/-- The serializable parameters of a `PoolingNodeBase`. -/
structure PoolingNodeParams where
  windowWidth : Nat
  windowHeight : Nat
  horizontalSubsample : Nat
  verticalSubsample : Nat
deriving DecidableEq, Repr

/-- `PoolingNodeBase::Save` (lines 421-425). -/
def PoolingSaveFields (p : PoolingNodeParams) : List SerializedField :=
  [.fnat p.windowWidth, .fnat p.windowHeight,
   .fnat p.horizontalSubsample, .fnat p.verticalSubsample]

/-- `PoolingNodeBase::Load` (lines 427-431). -/
def PoolingLoadFields (l : List SerializedField) :
    Option (PoolingNodeParams × List SerializedField) := do
  let (windowWidth, l) ← readNatField l
  let (windowHeight, l) ← readNatField l
  let (horizontalSubsample, l) ← readNatField l
  let (verticalSubsample, l) ← readNatField l
  some (⟨windowWidth, windowHeight, horizontalSubsample, verticalSubsample⟩, l)

/-! ## Matrix model

A matrix is a total function `Nat → Nat → Int`, read as `M row col`;
only the entries inside the dimensions the code tracks are meaningful,
and every multiply receives the extent it iterates over explicitly. -/

/-- Functional matrix model. -/
def Mat : Type := Nat → Nat → Int

/-- The all-zero matrix. -/
def matZero : Mat := fun _ _ => 0

/-- Pointwise matrix addition. -/
def matAdd (A B : Mat) : Mat := fun i j => A i j + B i j

/-- `A * B` summing over `k` inner columns/rows:
entry `(i, j)` is `Σ x < k, A i x * B x j`. -/
def matMulAB (k : Nat) (A B : Mat) : Mat :=
  fun i j => ∑ x ∈ Finset.range k, A i x * B x j

/-- `A * Bᵀ` summing over `k` shared columns:
entry `(i, j)` is `Σ x < k, A i x * B j x`. -/
def matMulABt (k : Nat) (A B : Mat) : Mat :=
  fun i j => ∑ x ∈ Finset.range k, A i x * B j x

/-- `Aᵀ * B` summing over `k` shared rows:
entry `(i, j)` is `Σ x < k, A x i * B x j`. -/
def matMulAtB (k : Nat) (A B : Mat) : Mat :=
  fun i j => ∑ x ∈ Finset.range k, A x i * B x j

/-- `Matrix<ElemType>::MultiplyAndAdd(A, false, B, true, C)`.
Modelled from the spec: the matrix capability's multiply-add adds
`A * Bᵀ` into `C` (`C += A * Bᵀ`); `k` is the shared column count. -/
def MultiplyAndAddABt (k : Nat) (A B C : Mat) : Mat :=
  matAdd C (matMulABt k A B)

/-- `M.ColumnSlice(start, count)`: a view of `count` columns of `M`
beginning at `start`.  In the functional model the view is the column
offset; the `count` reappears as the extent of whichever operation
consumes the slice, exactly as in the code. -/
def columnSlice (M : Mat) (start : Nat) : Mat :=
  fun i j => M i (start + j)

/-- `M.Reshape(rNew, ...)` of a column-major matrix that currently has
`rOld` rows: element `(i, j)` of the reshaped view is the flat element
`j * rNew + i` of the backing store, i.e. element
`(flat % rOld, flat / rOld)` of `M`.  Lossless reinterpretation of the
same storage, no copy. -/
def reshape (rOld rNew : Nat) (M : Mat) : Mat :=
  fun i j => M ((j * rNew + i) % rOld) ((j * rNew + i) / rOld)

/-- Overwrite columns `[start, start + count)` of `buf` with the columns
of `vals` (used for writes through a `ColumnSlice` view that assign,
e.g. `Matrix::Multiply` into an output sub-batch slice). -/
def writeIntoColumnRange (buf : Mat) (start count : Nat) (vals : Mat) : Mat :=
  fun i j => if start ≤ j ∧ j < start + count then vals i (j - start) else buf i j

/-- Add the columns of `contrib` into columns `[start, start + count)` of
`buf` (used for scatter-add writes through a `ColumnSlice` view). -/
def addIntoColumnRange (buf : Mat) (start count : Nat) (contrib : Mat) : Mat :=
  fun i j => if start ≤ j ∧ j < start + count then buf i j + contrib i (j - start) else buf i j

/-! ## Convolution backward pass over the weight -/

/-- The repacking branch of `BackpropToOverWeight` (lines 144-162): for
each sub-batch, slice the output gradient (already reshaped to
`[outC, batch * outputSizePerChannel]`) and the input, densify the input
slice (value-preserving, so invisible in this model), repack it with
`AssignPackedConvolutionInput` (an external primitive, passed as the
capability `pack`), and `MultiplyAndAdd` the product of the gradient
slice with the transposed packed matrix into the weight-gradient
buffer.  `gradReshaped` is the reshaped `gradientValues`. -/
def BackpropToOverWeightRepack (pack : Mat → Mat) (cfg : ConvConfig)
    (gradReshaped inputGradientValues input1 : Mat) (batchSize : Nat) : Mat :=
  let outputSizePerChannel := cfg.sampleLayout.width * cfg.sampleLayout.height
  let m := cfg.maxTempMemSizeInSamples
  (List.range (numSubBatches batchSize m)).foldl
    (fun acc i =>
      let startSampleID := subBatchStart batchSize m i
      let small := smallBatchSize batchSize m i
      let outputGradientSubBatch := columnSlice gradReshaped (startSampleID * outputSizePerChannel)
      let inputSubBatch := columnSlice input1 startSampleID
      MultiplyAndAddABt (small * outputSizePerChannel) outputGradientSubBatch (pack inputSubBatch) acc)
    inputGradientValues

/-- `BackpropToOverWeight` (lines 120-165).  `inputGradientValues` is the
weight-gradient buffer (the gradient of input 0), `input1` the input
feature batch, `tempMatrix` the packed buffer retained from the forward
pass, `inLoop` the `!fr.IsAllFrames()` flag, and `usedSparse` the
`m_1DConvolutionOnGPUSparse` flag recorded by the last forward pass.
The initial `Reshape` of `gradientValues` to
`[outC, batchSize * outputSizePerChannel]` is applied up front; the
final `Reshape` back only restores the caller's view of the read-only
gradient and does not affect the returned buffer. -/
def BackpropToOverWeight (pack : Mat → Mat) (cfg : ConvConfig)
    (gradientValues inputGradientValues input1 tempMatrix : Mat)
    (batchSize : Nat) (inLoop usedSparse : Bool) : Mat :=
  let outputSizePerChannel := cfg.sampleLayout.width * cfg.sampleLayout.height
  let gradReshaped := reshape (cfg.sampleLayout.numChannels * outputSizePerChannel)
    cfg.sampleLayout.numChannels gradientValues
  if numSubBatches batchSize cfg.maxTempMemSizeInSamples = 1 ∧ inLoop = false ∧ usedSparse = false then
    MultiplyAndAddABt (batchSize * outputSizePerChannel) gradReshaped tempMatrix inputGradientValues
  else
    BackpropToOverWeightRepack pack cfg gradReshaped inputGradientValues input1 batchSize

/-! ## Convolution backward pass over the input feature -/

/-- `BackpropToOverInputFeature` (lines 168-206).  Per sub-batch: the
packed gradient is `weightᵀ * outputGradientSubBatch` (`Matrix::Multiply`
overwriting `tempMatrix`), and `UnpackConvolutionInput` scatter-adds its
unpacked form into the corresponding column slice of the input-gradient
buffer.  The unpack primitive lives outside this repository; it is
modelled from the spec as an arbitrary contribution function `unpackC`
whose result is added into the slice ("scatter-add each patch gradient
back onto the receptive-field positions"). -/
def BackpropToOverInputFeature (unpackC : Mat → Mat) (cfg : ConvConfig)
    (gradientValues inputGradientValues input0 : Mat) (batchSize : Nat) : Mat :=
  let outputSizePerChannel := cfg.sampleLayout.width * cfg.sampleLayout.height
  let m := cfg.maxTempMemSizeInSamples
  let gradReshaped := reshape (cfg.sampleLayout.numChannels * outputSizePerChannel)
    cfg.sampleLayout.numChannels gradientValues
  (List.range (numSubBatches batchSize m)).foldl
    (fun acc i =>
      let startSampleID := subBatchStart batchSize m i
      let small := smallBatchSize batchSize m i
      let outputGradientSubBatch := columnSlice gradReshaped (startSampleID * outputSizePerChannel)
      let tempMatrix := matMulAtB cfg.sampleLayout.numChannels input0 outputGradientSubBatch
      addIntoColumnRange acc startSampleID small (unpackC tempMatrix))
    inputGradientValues

/-- `ConvolutionNode::BackpropTo` (lines 105-117): dispatch on the input
index; index 0 updates the weight gradient (note that the weight value
operand is passed but ignored by `BackpropToOverWeight`, its parameter
being commented out), index 1 updates the input-feature gradient.  The
result is the pair (weight-gradient buffer, input-gradient buffer). -/
def ConvolutionBackpropTo (pack unpackC : Mat → Mat) (cfg : ConvConfig)
    (inputIndex : Nat) (gradientValues weightGradient weightValue inputGradient input1 tempMatrix : Mat)
    (batchSize : Nat) (inLoop usedSparse : Bool) : Mat × Mat :=
  if inputIndex = 0 then
    (BackpropToOverWeight pack cfg gradientValues weightGradient input1 tempMatrix batchSize inLoop usedSparse,
     inputGradient)
  else if inputIndex = 1 then
    (weightGradient,
     BackpropToOverInputFeature unpackC cfg gradientValues inputGradient weightValue batchSize)
  else
    (weightGradient, inputGradient)

/-! ## Convolution forward pass -/

/-- `CurrentDataLocation` of a matrix (from the matrix capability). -/
inductive CurrentDataLocation where
  | NONE
  | CPU
  | GPU
  | BOTH
deriving DecidableEq, Repr

/-- Storage type of a matrix (from the matrix capability). -/
inductive MatrixKind where
  | UNDETERMINED
  | DENSE
  | SPARSE
deriving DecidableEq, Repr

/-- The `m_1DConvolutionOnGPUSparse` flag computed at lines 238-240 of
`ForwardPropS`: input layout height is 1, the input currently resides on
the GPU, and it is stored sparse. -/
def use1DConvolutionOnGPUSparse (cfg : ConvConfig)
    (inputLocation : CurrentDataLocation) (inputKind : MatrixKind) : Bool :=
  cfg.inputLayout.height = 1
    ∧ inputLocation = CurrentDataLocation.GPU
    ∧ inputKind = MatrixKind.SPARSE

/-- The GPU-sparse 1-D branch of the `ForwardPropS` loop (lines 262-270):
no reshape and no packing; per sub-batch, check the kernel/weight
dimension match, slice the un-reshaped output at the raw sample range
and overwrite it with the fused `ConvolveAndWeightedAdd` result (beta is
0, so the call assigns).  The fused primitive lives outside this
repository and is modelled from the spec as the capability
`convolveAdd weight inputSlice`.  `weightNumCols` is
`weightMatrix.GetNumCols()`. -/
def ForwardPropSparse1D (convolveAdd : Mat → Mat → Mat) (cfg : ConvConfig)
    (functionValues input0 input1 : Mat) (batchSize weightNumCols : Nat) :
    Except ValidationError Mat :=
  let m := cfg.maxTempMemSizeInSamples
  if cfg.kernelWidth * cfg.inputLayout.numChannels ≠ weightNumCols then
    .error (.invalidArgument "Kernel width and weight matrix dimensions do not match.")
  else
    .ok ((List.range (numSubBatches batchSize m)).foldl
      (fun acc i =>
        let startSampleID := subBatchStart batchSize m i
        let small := smallBatchSize batchSize m i
        let inputSubBatch := columnSlice input1 startSampleID
        writeIntoColumnRange acc startSampleID small (convolveAdd input0 inputSubBatch))
      functionValues)

/-- The generic branch of the `ForwardPropS` loop (lines 271-282): the
output is reshaped to `[outC, batchSize * outputSizePerChannel]`; per
sub-batch, densify the input slice (value-preserving), pack it with
`AssignPackedConvolutionInput` (capability `pack`) and overwrite the
matching output column range with `weight * packed`
(`Matrix::Multiply`), where the multiply iterates over the
`packedInputRows = kernelWidth * kernelHeight * inC` inner dimension.
The result is reshaped back to `[outC * outputSizePerChannel, batchSize]`
at line 285 (lossless, and invisible to the flat backing store of this
model, which identifies a matrix with its reshaped views through
`reshape`; we return the reshaped-back view explicitly). -/
def ForwardPropGeneric (pack : Mat → Mat) (cfg : ConvConfig)
    (functionValues input0 input1 : Mat) (batchSize : Nat) : Mat :=
  let outputSizePerChannel := cfg.sampleLayout.width * cfg.sampleLayout.height
  let packedInputRows := cfg.kernelWidth * cfg.kernelHeight * cfg.inputLayout.numChannels
  let m := cfg.maxTempMemSizeInSamples
  let outReshaped := reshape (cfg.sampleLayout.numChannels * outputSizePerChannel)
    cfg.sampleLayout.numChannels functionValues
  let written := (List.range (numSubBatches batchSize m)).foldl
    (fun acc i =>
      let startSampleID := subBatchStart batchSize m i
      let small := smallBatchSize batchSize m i
      let inputSubBatch := columnSlice input1 startSampleID
      let tempMatrix := pack inputSubBatch
      writeIntoColumnRange acc (startSampleID * outputSizePerChannel) (small * outputSizePerChannel)
        (matMulAB packedInputRows input0 tempMatrix))
    outReshaped
  reshape cfg.sampleLayout.numChannels (cfg.sampleLayout.numChannels * outputSizePerChannel) written

/-- `ForwardPropS` (lines 217-290).  Computes the
`m_1DConvolutionOnGPUSparse` flag from the input layout height, the
input data location and storage kind, then runs either the fused
GPU-sparse 1-D loop or the generic densify-pack-multiply loop (the code
tests the loop-invariant flag inside the loop; the two loop bodies are
factored here).  Returns the updated output buffer together with the
recorded flag. -/
def ForwardPropS (pack : Mat → Mat) (convolveAdd : Mat → Mat → Mat) (cfg : ConvConfig)
    (functionValues input0 input1 : Mat) (batchSize weightNumCols : Nat)
    (inputLocation : CurrentDataLocation) (inputKind : MatrixKind) :
    Except ValidationError (Mat × Bool) :=
  let flag := use1DConvolutionOnGPUSparse cfg inputLocation inputKind
  if flag then
    match ForwardPropSparse1D convolveAdd cfg functionValues input0 input1 batchSize weightNumCols with
    | .error e => .error e
    | .ok out => .ok (out, true)
  else
    .ok (ForwardPropGeneric pack cfg functionValues input0 input1 batchSize, false)

/-! ## Pooling backward passes -/

/-- `Matrix::AddMaxPoolingGradient`, which lives outside this repository.
Modelled from the spec: the max-pooling backward primitive add-accumulates
its gradient contribution (a function of the output gradient, the input
values and the output values, here the capability `contrib`) into the
input-gradient buffer. -/
def AddMaxPoolingGradient (contrib : Mat → Mat → Mat → Mat)
    (gradientValues input0 functionValues inputGradientValues : Mat) : Mat :=
  matAdd inputGradientValues (contrib gradientValues input0 functionValues)

/-- `MaxPoolingNode::BackpropToV` (lines 555-561): a single
`AddMaxPoolingGradient` call on the caller-owned input-gradient buffer. -/
def MaxPoolingBackpropToV (contrib : Mat → Mat → Mat → Mat)
    (gradientValues inputGradientValues input0 functionValues : Mat) : Mat :=
  AddMaxPoolingGradient contrib gradientValues input0 functionValues inputGradientValues

/-- `Matrix::AddAveragePoolingGradient`, which lives outside this
repository.  Modelled from the spec: the average-pooling backward
primitive add-accumulates its contribution (a function of the output
gradient alone) into the input-gradient buffer. -/
def AddAveragePoolingGradient (contrib : Mat → Mat)
    (gradientValues inputGradientValues : Mat) : Mat :=
  matAdd inputGradientValues (contrib gradientValues)

/-- `AveragePoolingNode::BackpropToV` (lines 593-599): a single
`AddAveragePoolingGradient` call on the caller-owned input-gradient
buffer (the input-value and output-value operands are ignored, their
parameters being commented out). -/
def AveragePoolingBackpropToV (contrib : Mat → Mat)
    (gradientValues inputGradientValues : Mat) : Mat :=
  AddAveragePoolingGradient contrib gradientValues inputGradientValues

/-! ## Theorems -/

/-- C3: with `zeroPadding` set, convolution shape inference computes
`outW = (inW - kernelW mod 2) / strideH + 1` and
`outH = (inH - kernelH mod 2) / strideV + 1` with integer division, for
every valid input layout (input at least kernel-sized, positive strides),
including even kernel sizes where the `kernel mod 2` adjustment is
asymmetric. -/
theorem convolution_zeroPadding_shape (cfg : ConvConfig) (L : ImageLayout)
    (hp : cfg.zeroPadding = true)
    (hw : cfg.kernelWidth ≤ L.width) (hh : cfg.kernelHeight ≤ L.height)
    (hsH : 0 < cfg.horizontalSubsample) (hsV : 0 < cfg.verticalSubsample) :
    ConvolutionInferImageDims cfg L =
      .ok ⟨(L.width - cfg.kernelWidth % 2) / cfg.horizontalSubsample + 1,
           (L.height - cfg.kernelHeight % 2) / cfg.verticalSubsample + 1,
           cfg.sampleLayout.numChannels⟩ := by
  unfold ConvolutionInferImageDims
  rw [if_neg (by omega : ¬(L.width < cfg.kernelWidth ∨ L.height < cfg.kernelHeight)),
    if_pos hp]

/-- Witness for C3 at an even kernel size (2 x 2, zero padding, stride 1):
a 5 x 5 x 3 input maps to a 6 x 6 output with the configured 4 output
channels. -/
theorem convolution_zeroPadding_shape_witness :
    ConvolutionInferImageDims ⟨2, 2, 1, 1, true, 0, ⟨5, 5, 3⟩, ⟨9, 9, 4⟩⟩ ⟨5, 5, 3⟩
      = .ok ⟨6, 6, 4⟩ :=
  convolution_zeroPadding_shape ⟨2, 2, 1, 1, true, 0, ⟨5, 5, 3⟩, ⟨9, 9, 4⟩⟩ ⟨5, 5, 3⟩
    rfl (by decide) (by decide) (by decide) (by decide)

/-- C4: without padding, convolution shape inference computes
`outW = (inW - kernelW) / strideH + 1`, `outH = (inH - kernelH) / strideV + 1`
and keeps the configured output channel count; pooling uses the same
formula with its window sizes and preserves the input channel count. -/
theorem noPadding_shape (cfg : ConvConfig) (pcfg : PoolConfig) (L Lp : ImageLayout)
    (hp : cfg.zeroPadding = false)
    (hw : cfg.kernelWidth ≤ L.width) (hh : cfg.kernelHeight ≤ L.height)
    (hpw : pcfg.windowWidth ≤ Lp.width) (hph : pcfg.windowHeight ≤ Lp.height)
    (hs1 : 0 < cfg.horizontalSubsample) (hs2 : 0 < cfg.verticalSubsample)
    (hs3 : 0 < pcfg.horizontalSubsample) (hs4 : 0 < pcfg.verticalSubsample) :
    ConvolutionInferImageDims cfg L =
      .ok ⟨(L.width - cfg.kernelWidth) / cfg.horizontalSubsample + 1,
           (L.height - cfg.kernelHeight) / cfg.verticalSubsample + 1,
           cfg.sampleLayout.numChannels⟩
    ∧ PoolingInferImageDims pcfg Lp =
      .ok ⟨(Lp.width - pcfg.windowWidth) / pcfg.horizontalSubsample + 1,
           (Lp.height - pcfg.windowHeight) / pcfg.verticalSubsample + 1,
           Lp.numChannels⟩ := by
  constructor
  · unfold ConvolutionInferImageDims
    rw [if_neg (by omega : ¬(L.width < cfg.kernelWidth ∨ L.height < cfg.kernelHeight))]
    rw [if_neg (by simp [hp])]
  · unfold PoolingInferImageDims
    rw [if_neg (by omega : ¬(Lp.width < pcfg.windowWidth ∨ Lp.height < pcfg.windowHeight))]

/-- Witness for C4: a 3 x 3 convolution kernel at stride 2 on a
7 x 5 x 3 input yields 3 x 2 x 4 output; a 2 x 2 pooling window at
stride 2 on a 6 x 4 x 5 input yields 3 x 2 x 5 output. -/
theorem noPadding_shape_witness :
    ConvolutionInferImageDims ⟨3, 3, 2, 2, false, 0, ⟨7, 5, 3⟩, ⟨1, 1, 4⟩⟩ ⟨7, 5, 3⟩
      = .ok ⟨3, 2, 4⟩
    ∧ PoolingInferImageDims ⟨2, 2, 2, 2⟩ ⟨6, 4, 5⟩ = .ok ⟨3, 2, 5⟩ :=
  noPadding_shape ⟨3, 3, 2, 2, false, 0, ⟨7, 5, 3⟩, ⟨1, 1, 4⟩⟩ ⟨2, 2, 2, 2⟩ ⟨7, 5, 3⟩ ⟨6, 4, 5⟩
    rfl (by decide) (by decide) (by decide) (by decide)
    (by decide) (by decide) (by decide) (by decide)

/-- C8: `Save` writes the operator parameters in the fixed order
kernel/window width, height, horizontal subsample, vertical subsample,
then for convolution output channel count, zero-padding flag and max
temp memory size, and `Load` reads them back in the same order, so
deserializing the serialized parameters reproduces identical values and
leaves the rest of the stream untouched. -/
theorem save_load_roundTrip (p : ConvolutionNodeParams) (q : PoolingNodeParams)
    (rest : List SerializedField) :
    ConvolutionLoadFields (ConvolutionSaveFields p ++ rest) = some (p, rest)
    ∧ PoolingLoadFields (PoolingSaveFields q ++ rest) = some (q, rest) :=
  ⟨rfl, rfl⟩

/-- C9: the sub-batch divisor `subBatchSize = min(batchSize, budget)` is
zero exactly when the batch is empty, in which case the C++ expression
`(batchSize + subBatchSize - 1) / subBatchSize` divides by zero; for
every batch size at least 1 the divisor is positive and at least one
sub-batch is produced, so the hazard is reachable only at batch size 0. -/
theorem subBatch_division_hazard (batchSize m : Nat) :
    (subBatchSize batchSize m = 0 ↔ batchSize = 0)
    ∧ (1 ≤ batchSize → 1 ≤ subBatchSize batchSize m ∧ 1 ≤ numSubBatches batchSize m) := by
  have hiff : subBatchSize batchSize m = 0 ↔ batchSize = 0 := by
    unfold subBatchSize resolvedMaxTempMemSamples
    split <;> omega
  refine ⟨hiff, fun hB => ?_⟩
  have hs : 1 ≤ subBatchSize batchSize m := by
    rcases Nat.eq_zero_or_pos (subBatchSize batchSize m) with h | h
    · exact absurd (hiff.mp h) (by omega)
    · exact h
  refine ⟨hs, ?_⟩
  unfold numSubBatches
  rw [Nat.one_le_div_iff hs]
  omega

/-- Witness for C9: at batch size 0 the divisor is 0; at batch size 4
with budget 3 the divisor is positive and there is at least one
sub-batch. -/
theorem subBatch_division_hazard_witness :
    subBatchSize 0 7 = 0
    ∧ (1 ≤ subBatchSize 4 3 ∧ 1 ≤ numSubBatches 4 3) :=
  ⟨(subBatch_division_hazard 0 7).1.mpr rfl,
   (subBatch_division_hazard 4 3).2 (by decide)⟩

/-- C10: the convolution weight-gradient pass ignores the current values
of the weight operand: dispatching `BackpropTo` at input index 0 with
two different weight-value matrices produces identical results for the
same output gradient, input batch, packed buffer and configuration (the
weight-value parameter of `BackpropToOverWeight` is unused). -/
theorem weightGradient_independent_of_weightValue
    (pack unpackC : Mat → Mat) (cfg : ConvConfig)
    (gradientValues weightGradient inputGradient input1 tempMatrix W1 W2 : Mat)
    (batchSize : Nat) (inLoop usedSparse : Bool) :
    ConvolutionBackpropTo pack unpackC cfg 0 gradientValues weightGradient W1
        inputGradient input1 tempMatrix batchSize inLoop usedSparse
      = ConvolutionBackpropTo pack unpackC cfg 0 gradientValues weightGradient W2
        inputGradient input1 tempMatrix batchSize inLoop usedSparse := rfl

/-- C1: for every batch size at least 1 and budget `M`, the sub-batch
tiling shared by `ForwardPropS`, `BackpropToOverWeight` and
`BackpropToOverInputFeature` uses
`subBatchSize = min(B, M)` with `M = 0` treated as `B`; `numSubBatches`
is the ceiling of `B / subBatchSize` (the least count whose sub-batches
cover `B` samples); sub-batch `i` spans the sample range
`[i * subBatchSize, min(B, (i + 1) * subBatchSize))`; and these ranges
partition the batch: every sample index below `B` lies in exactly the
sub-batch numbered by its quotient, which is a valid sub-batch index
(the passes then write the matching output/gradient column ranges at
offset `startSampleID * outputSizePerChannel`, visible structurally in
the pass definitions). -/
theorem subBatch_tiling (B M : Nat) (hB : 1 ≤ B) :
    subBatchSize B M = min B (if M = 0 then B else M)
    ∧ 1 ≤ subBatchSize B M
    ∧ B ≤ numSubBatches B M * subBatchSize B M
    ∧ (∀ k, B ≤ k * subBatchSize B M → numSubBatches B M ≤ k)
    ∧ (∀ i, subBatchStart B M i = i * subBatchSize B M
          ∧ subBatchEnd B M i = min B ((i + 1) * subBatchSize B M))
    ∧ (∀ j, j < B →
          j / subBatchSize B M < numSubBatches B M
          ∧ ∀ i, (subBatchStart B M i ≤ j ∧ j < subBatchEnd B M i ↔ i = j / subBatchSize B M)) := by
  have hs : 1 ≤ subBatchSize B M := by
    unfold subBatchSize resolvedMaxTempMemSamples
    split <;> omega
  unfold numSubBatches subBatchEnd subBatchStart
  obtain ⟨s, hseq⟩ : ∃ s, subBatchSize B M = s := ⟨_, rfl⟩
  rw [hseq] at hs ⊢
  have hq : (B + s - 1) / s = (B - 1) / s + 1 := by
    rw [show B + s - 1 = (B - 1) + s by omega, Nat.add_div_right _ hs]
  have hd1 := Nat.div_add_mod (B - 1) s
  have hd2 : (B - 1) % s < s := Nat.mod_lt _ hs
  refine ⟨?_, hs, ?_, ?_, ?_, ?_⟩
  · rw [← hseq]
    unfold subBatchSize resolvedMaxTempMemSamples
    rfl
  · rw [hq]
    have hexp : ((B - 1) / s + 1) * s = s * ((B - 1) / s) + s := by ring
    omega
  · intro k hk
    rw [hq]
    have hlt : B - 1 < k * s := by omega
    have := (Nat.div_lt_iff_lt_mul hs).mpr hlt
    omega
  · intro i
    refine ⟨rfl, ?_⟩
    rw [show (i + 1) * s = i * s + s by ring]
  · intro j hj
    have hjd := Nat.div_add_mod j s
    have hjm : j % s < s := Nat.mod_lt _ hs
    refine ⟨?_, ?_⟩
    · rw [hq]
      have hle : j / s ≤ (B - 1) / s := Nat.div_le_div_right (by omega)
      omega
    · intro i
      constructor
      · rintro ⟨h1, h2⟩
        have h2' : j < i * s + s := lt_of_lt_of_le h2 (min_le_right _ _)
        rcases Nat.lt_trichotomy i (j / s) with h | h | h
        · exfalso
          have hle2 : (i + 1) * s ≤ (j / s) * s :=
            Nat.mul_le_mul_right s (by omega)
          have e1 : (i + 1) * s = i * s + s := by ring
          have e2 : (j / s) * s = s * (j / s) := by ring
          omega
        · omega
        · exfalso
          have hle2 : (j / s + 1) * s ≤ i * s :=
            Nat.mul_le_mul_right s (by omega)
          have e1 : (j / s + 1) * s = s * (j / s) + s := by ring
          omega
      · intro hi
        subst hi
        have e2 : (j / s) * s = s * (j / s) := by ring
        refine ⟨by omega, ?_⟩
        exact lt_min hj (by omega)

/-- Witness for C1 at batch size 5 with budget 2: sub-batch size 2,
three sub-batches, the third spanning samples `[4, 5)`, and sample 3
lying exactly in sub-batch 1. -/
theorem subBatch_tiling_witness :
    subBatchSize 5 2 = min 5 (if 2 = 0 then 5 else 2)
    ∧ 5 ≤ numSubBatches 5 2 * subBatchSize 5 2
    ∧ subBatchEnd 5 2 2 = min 5 ((2 + 1) * subBatchSize 5 2)
    ∧ (subBatchStart 5 2 1 ≤ 3 ∧ 3 < subBatchEnd 5 2 1 ↔ 1 = 3 / subBatchSize 5 2) :=
  ⟨(subBatch_tiling 5 2 (by decide)).1,
   (subBatch_tiling 5 2 (by decide)).2.2.1,
   ((subBatch_tiling 5 2 (by decide)).2.2.2.2.1 2).2,
   ((subBatch_tiling 5 2 (by decide)).2.2.2.2.2 3 (by decide)).2 1⟩

/-! ### Additivity helpers -/

theorem matAdd_zero_left (A : Mat) : matAdd matZero A = A := by
  funext i j
  simp [matAdd, matZero]

theorem matAdd_zero_right (A : Mat) : matAdd A matZero = A := by
  funext i j
  simp [matAdd, matZero]

theorem matAdd_assoc (A B C : Mat) : matAdd (matAdd A B) C = matAdd A (matAdd B C) := by
  funext i j
  simp only [matAdd]
  ring

/-- A left fold that adds one contribution per step equals the initial
buffer plus the total contribution accumulated from the zero matrix. -/
theorem foldl_matAdd_extract (f : Nat → Mat) (l : List Nat) (G : Mat) :
    l.foldl (fun acc i => matAdd acc (f i)) G
      = matAdd G (l.foldl (fun acc i => matAdd acc (f i)) matZero) := by
  induction l generalizing G with
  | nil => simp [matAdd_zero_right]
  | cons a t ih =>
    simp only [List.foldl_cons]
    rw [ih (matAdd G (f a)), ih (matAdd matZero (f a)), matAdd_zero_left, matAdd_assoc]

/-- The columnwise masked contribution written through a `ColumnSlice`
view by a scatter-add. -/
def sliceMask (start count : Nat) (contrib : Mat) : Mat :=
  fun i j => if start ≤ j ∧ j < start + count then contrib i (j - start) else 0

theorem addIntoColumnRange_eq_matAdd (buf : Mat) (start count : Nat) (c : Mat) :
    addIntoColumnRange buf start count c = matAdd buf (sliceMask start count c) := by
  funext i j
  simp only [addIntoColumnRange, matAdd, sliceMask]
  split <;> simp

/-- C5: every backward pass adds into, never overwrites, the caller-owned
gradient buffer.  The convolution weight-gradient pass (both the packed
fast path and the repacking sub-batch loop), the convolution
input-gradient pass (scatter-adding unpacked contributions per
sub-batch), and the max- and average-pooling backward passes each leave
the gradient buffer equal to its prior contents plus the contribution
the same pass produces from a zero buffer (a contribution independent
of the prior contents). -/
theorem backward_passes_accumulate (pack unpackC : Mat → Mat)
    (maxContrib : Mat → Mat → Mat → Mat) (avgContrib : Mat → Mat)
    (cfg : ConvConfig) (gradientValues G input1 tempMatrix input0 : Mat)
    (batchSize : Nat) (inLoop usedSparse : Bool)
    (poolGrad poolInput poolOutput : Mat) :
    BackpropToOverWeight pack cfg gradientValues G input1 tempMatrix batchSize inLoop usedSparse
      = matAdd G (BackpropToOverWeight pack cfg gradientValues matZero input1 tempMatrix batchSize inLoop usedSparse)
    ∧ BackpropToOverInputFeature unpackC cfg gradientValues G input0 batchSize
      = matAdd G (BackpropToOverInputFeature unpackC cfg gradientValues matZero input0 batchSize)
    ∧ MaxPoolingBackpropToV maxContrib poolGrad G poolInput poolOutput
      = matAdd G (maxContrib poolGrad poolInput poolOutput)
    ∧ AveragePoolingBackpropToV avgContrib poolGrad G
      = matAdd G (avgContrib poolGrad) := by
  refine ⟨?_, ?_, rfl, rfl⟩
  · unfold BackpropToOverWeight
    split
    · simp only [MultiplyAndAddABt]
      rw [matAdd_zero_left]
    · unfold BackpropToOverWeightRepack
      simp only [MultiplyAndAddABt]
      exact foldl_matAdd_extract _ _ _
  · unfold BackpropToOverInputFeature
    simp only [addIntoColumnRange_eq_matAdd]
    exact foldl_matAdd_extract _ _ _

theorem columnSlice_zero (M : Mat) : columnSlice M 0 = M := by
  funext i j
  simp [columnSlice]

/-- C2: the weight-gradient backward pass skips repacking and multiplies
against the packed buffer retained from the forward pass exactly when
`numSubBatches = 1`, the call is not inside a recurrent/looping context,
and the GPU-sparse specialization was not used on the last forward pass;
under those conditions, given that the retained buffer holds the packing
of the same unmutated input, the fast path computes the same weight
gradient as the repacking branch; in every other case the repacking
branch itself runs. -/
theorem backpropWeight_fastPath (pack : Mat → Mat) (cfg : ConvConfig)
    (gradientValues G input1 tempMatrix : Mat) (batchSize : Nat)
    (inLoop usedSparse : Bool)
    (ht : tempMatrix = pack input1) :
    (numSubBatches batchSize cfg.maxTempMemSizeInSamples = 1 ∧ inLoop = false ∧ usedSparse = false →
       BackpropToOverWeight pack cfg gradientValues G input1 tempMatrix batchSize inLoop usedSparse
         = MultiplyAndAddABt (batchSize * (cfg.sampleLayout.width * cfg.sampleLayout.height))
             (reshape (cfg.sampleLayout.numChannels * (cfg.sampleLayout.width * cfg.sampleLayout.height))
               cfg.sampleLayout.numChannels gradientValues)
             tempMatrix G
       ∧ BackpropToOverWeight pack cfg gradientValues G input1 tempMatrix batchSize inLoop usedSparse
         = BackpropToOverWeightRepack pack cfg
             (reshape (cfg.sampleLayout.numChannels * (cfg.sampleLayout.width * cfg.sampleLayout.height))
               cfg.sampleLayout.numChannels gradientValues)
             G input1 batchSize)
    ∧ (¬(numSubBatches batchSize cfg.maxTempMemSizeInSamples = 1 ∧ inLoop = false ∧ usedSparse = false) →
       BackpropToOverWeight pack cfg gradientValues G input1 tempMatrix batchSize inLoop usedSparse
         = BackpropToOverWeightRepack pack cfg
             (reshape (cfg.sampleLayout.numChannels * (cfg.sampleLayout.width * cfg.sampleLayout.height))
               cfg.sampleLayout.numChannels gradientValues)
             G input1 batchSize) := by
  constructor
  · rintro ⟨h1, hl, hsp⟩
    have hB : 1 ≤ batchSize := by
      by_contra hB0
      have hBz : batchSize = 0 := by omega
      subst hBz
      have hz : subBatchSize 0 cfg.maxTempMemSizeInSamples = 0 := by
        unfold subBatchSize resolvedMaxTempMemSamples
        split <;> omega
      unfold numSubBatches at h1
      rw [hz] at h1
      simp at h1
    have hs0 : subBatchSize batchSize cfg.maxTempMemSizeInSamples ≤ batchSize :=
      Nat.min_le_left _ _
    have hs1 : 1 ≤ subBatchSize batchSize cfg.maxTempMemSizeInSamples := by
      unfold subBatchSize resolvedMaxTempMemSamples
      split <;> omega
    have hsB : subBatchSize batchSize cfg.maxTempMemSizeInSamples = batchSize := by
      unfold numSubBatches at h1
      obtain ⟨s, hseq⟩ : ∃ s, subBatchSize batchSize cfg.maxTempMemSizeInSamples = s := ⟨_, rfl⟩
      rw [hseq] at h1 hs1 hs0 ⊢
      rw [show batchSize + s - 1 = (batchSize - 1) + s by omega, Nat.add_div_right _ hs1] at h1
      have h0 : (batchSize - 1) / s = 0 := by omega
      have hdm := Nat.div_add_mod (batchSize - 1) s
      have hml : (batchSize - 1) % s < s := Nat.mod_lt _ hs1
      rw [h0] at hdm
      simp at hdm
      omega
    have hstart : subBatchStart batchSize cfg.maxTempMemSizeInSamples 0 = 0 := by
      simp [subBatchStart]
    have hsmall : smallBatchSize batchSize cfg.maxTempMemSizeInSamples 0 = batchSize := by
      unfold smallBatchSize subBatchEnd subBatchStart
      rw [hsB]
      simp
    have hr : List.range 1 = [0] := rfl
    constructor
    · simp only [BackpropToOverWeight]
      rw [if_pos ⟨h1, hl, hsp⟩]
    · simp only [BackpropToOverWeight]
      rw [if_pos ⟨h1, hl, hsp⟩]
      simp only [BackpropToOverWeightRepack, h1, hr, List.foldl_cons,
        List.foldl_nil, hstart, hsmall, Nat.zero_mul, columnSlice_zero, ht]
  · intro h
    simp only [BackpropToOverWeight]
    rw [if_neg h]

/-- Concrete input batch for witnesses: entry `(i, j)` is `2 i - j`. -/
def sampleInput1 : Mat := fun i j => (2 * i : Int) - j

/-- Concrete output-gradient matrix for witnesses. -/
def sampleGrad : Mat := fun i j => (i : Int) + 2 * j

/-- Concrete pre-existing gradient buffer for witnesses. -/
def sampleBuf : Mat := fun i j => (i : Int) * j + 1

/-- Concrete deterministic stand-in for the packing primitive. -/
def samplePack : Mat → Mat := fun M => fun i j => M j i + 1

/-- The packed buffer a forward pass on `sampleInput1` would retain. -/
def sampleTempMatrix : Mat := samplePack sampleInput1

/-- A convolution configuration whose batch of 2 samples fits in a single
sub-batch (unbounded memory budget). -/
def fastPathCfg : ConvConfig := ⟨1, 1, 1, 1, false, 0, ⟨1, 1, 1⟩, ⟨1, 1, 1⟩⟩

/-- Witness for C2 at batch size 2 with unbounded budget (one sub-batch):
with the retained buffer holding the packing of the same input, the fast
path agrees with the repacking branch. -/
theorem backpropWeight_fastPath_witness :
    sampleTempMatrix = samplePack sampleInput1
    ∧ numSubBatches 2 fastPathCfg.maxTempMemSizeInSamples = 1
    ∧ BackpropToOverWeight samplePack fastPathCfg sampleGrad sampleBuf sampleInput1 sampleTempMatrix 2 false false
      = BackpropToOverWeightRepack samplePack fastPathCfg
          (reshape (fastPathCfg.sampleLayout.numChannels * (fastPathCfg.sampleLayout.width * fastPathCfg.sampleLayout.height))
            fastPathCfg.sampleLayout.numChannels sampleGrad)
          sampleBuf sampleInput1 2 :=
  ⟨rfl, by decide,
   ((backpropWeight_fastPath samplePack fastPathCfg sampleGrad sampleBuf sampleInput1
      sampleTempMatrix 2 false false rfl).1 ⟨by decide, rfl, rfl⟩).2⟩

/-- C6: the convolution forward pass takes the GPU-sparse 1-D
specialization (fused convolve-and-accumulate, no packing, no reshape)
if and only if the input layout height is 1, the input matrix is stored
sparse, and its current data location is the GPU; in every other case
it takes the generic densify-pack-multiply path. -/
theorem forwardProp_path_selection (pack : Mat → Mat) (convolveAdd : Mat → Mat → Mat)
    (cfg : ConvConfig) (functionValues input0 input1 : Mat)
    (batchSize weightNumCols : Nat)
    (loc : CurrentDataLocation) (mk : MatrixKind) :
    (use1DConvolutionOnGPUSparse cfg loc mk = true ↔
       (cfg.inputLayout.height = 1 ∧ loc = CurrentDataLocation.GPU ∧ mk = MatrixKind.SPARSE))
    ∧ (use1DConvolutionOnGPUSparse cfg loc mk = true →
        ForwardPropS pack convolveAdd cfg functionValues input0 input1 batchSize weightNumCols loc mk
          = (ForwardPropSparse1D convolveAdd cfg functionValues input0 input1 batchSize weightNumCols).map
              (fun out => (out, true)))
    ∧ (use1DConvolutionOnGPUSparse cfg loc mk = false →
        ForwardPropS pack convolveAdd cfg functionValues input0 input1 batchSize weightNumCols loc mk
          = .ok (ForwardPropGeneric pack cfg functionValues input0 input1 batchSize, false)) := by
  refine ⟨by simp [use1DConvolutionOnGPUSparse], ?_, ?_⟩
  · intro h
    simp only [ForwardPropS, h, if_true]
    cases hE : ForwardPropSparse1D convolveAdd cfg functionValues input0 input1 batchSize weightNumCols <;>
      simp [Except.map]
  · intro h
    simp only [ForwardPropS, h, Bool.false_eq_true, if_false]

/-- A configuration with a height-1 input layout, as used by the text
scenario of the GPU-sparse 1-D specialization. -/
def sparse1DCfg : ConvConfig := ⟨3, 1, 1, 1, false, 0, ⟨5, 1, 2⟩, ⟨3, 1, 4⟩⟩

/-- Concrete deterministic stand-in for the fused convolve-and-accumulate
primitive. -/
def sampleConvolveAdd : Mat → Mat → Mat := fun W X => fun i j => W i j * X i j

/-- Witness for C6: with a height-1 layout, a GPU location, and sparse
storage the sparse specialization is selected; flipping the location to
CPU selects the generic path. -/
theorem forwardProp_path_selection_witness :
    use1DConvolutionOnGPUSparse sparse1DCfg CurrentDataLocation.GPU MatrixKind.SPARSE = true
    ∧ ForwardPropS samplePack sampleConvolveAdd sparse1DCfg sampleBuf sampleGrad sampleInput1 2 6
        CurrentDataLocation.GPU MatrixKind.SPARSE
      = (ForwardPropSparse1D sampleConvolveAdd sparse1DCfg sampleBuf sampleGrad sampleInput1 2 6).map
          (fun out => (out, true))
    ∧ ForwardPropS samplePack sampleConvolveAdd sparse1DCfg sampleBuf sampleGrad sampleInput1 2 6
        CurrentDataLocation.CPU MatrixKind.SPARSE
      = .ok (ForwardPropGeneric samplePack sparse1DCfg sampleBuf sampleGrad sampleInput1 2, false) :=
  ⟨by decide,
   (forwardProp_path_selection samplePack sampleConvolveAdd sparse1DCfg sampleBuf sampleGrad
      sampleInput1 2 6 CurrentDataLocation.GPU MatrixKind.SPARSE).2.1 (by decide),
   (forwardProp_path_selection samplePack sampleConvolveAdd sparse1DCfg sampleBuf sampleGrad
      sampleInput1 2 6 CurrentDataLocation.CPU MatrixKind.SPARSE).2.2 (by decide)⟩

/-- C7: validation fails with a fatal error whenever the stride exceeds
the kernel/window extent or the input spatial dimensions are smaller
than the kernel/window, for both the convolution node and the pooling
base; and on the final validation pass a convolution weight operand
whose (non-inferred) dimensions are not exactly
`[outputChannels, kernelWidth * kernelHeight * inputChannels]` produces
the logic error carrying the operand name and the expected dimensions. -/
theorem validation_rejects_bad_configs (cfg : ConvConfig) (pcfg : PoolConfig)
    (L Lp : ImageLayout) (weightName nodeName pNodeName : String)
    (wr wc i1r i1c p0r p0c : Nat) (fin : Bool) :
    (cfg.kernelWidth < cfg.horizontalSubsample ∨ cfg.kernelHeight < cfg.verticalSubsample →
       isError (ConvolutionValidate cfg L weightName nodeName wr wc i1r i1c fin) = true)
    ∧ (L.width < cfg.kernelWidth ∨ L.height < cfg.kernelHeight →
       isError (ConvolutionValidate cfg L weightName nodeName wr wc i1r i1c fin) = true)
    ∧ (cfg.horizontalSubsample ≤ cfg.kernelWidth → cfg.verticalSubsample ≤ cfg.kernelHeight →
       cfg.kernelWidth ≤ L.width → cfg.kernelHeight ≤ L.height →
       fin = true → wr * wc ≠ 0 →
       (wc ≠ cfg.kernelWidth * cfg.kernelHeight * L.numChannels ∨ wr ≠ cfg.sampleLayout.numChannels) →
       ConvolutionValidate cfg L weightName nodeName wr wc i1r i1c fin
         = .error (.weightDimsError weightName cfg.sampleLayout.numChannels
             (cfg.kernelWidth * cfg.kernelHeight * L.numChannels)))
    ∧ (pcfg.windowWidth < pcfg.horizontalSubsample ∨ pcfg.windowHeight < pcfg.verticalSubsample →
       isError (PoolingValidate pcfg Lp pNodeName p0r p0c fin) = true)
    ∧ (Lp.width < pcfg.windowWidth ∨ Lp.height < pcfg.windowHeight →
       isError (PoolingValidate pcfg Lp pNodeName p0r p0c fin) = true) := by
  refine ⟨?_, ?_, ?_, ?_, ?_⟩
  · intro h
    unfold ConvolutionValidate
    rw [if_pos (by omega)]
    rfl
  · intro h
    unfold ConvolutionValidate
    by_cases hstride : cfg.horizontalSubsample > cfg.kernelWidth ∨ cfg.verticalSubsample > cfg.kernelHeight
    · rw [if_pos hstride]
      rfl
    · rw [if_neg hstride]
      unfold ConvolutionInferImageDims
      rw [if_pos (by omega)]
      rfl
  · intro hs1 hs2 hw hh hfin hne hmm
    subst hfin
    have hstride : ¬(cfg.horizontalSubsample > cfg.kernelWidth ∨ cfg.verticalSubsample > cfg.kernelHeight) := by
      omega
    have hout : ∃ out, ConvolutionInferImageDims cfg L = Except.ok out := by
      unfold ConvolutionInferImageDims
      rw [if_neg (by omega)]
      by_cases hz : cfg.zeroPadding = true
      · rw [if_pos hz]
        exact ⟨_, rfl⟩
      · rw [if_neg hz]
        exact ⟨_, rfl⟩
    obtain ⟨out, hout⟩ := hout
    unfold ConvolutionValidate
    rw [if_neg hstride, hout]
    have hwd : (if wr * wc = 0 then
        (cfg.sampleLayout.numChannels, cfg.kernelWidth * cfg.kernelHeight * L.numChannels)
        else (wr, wc)) = (wr, wc) := if_neg hne
    simp only [hwd]
    rw [if_pos ⟨trivial, hmm⟩]
  · intro h
    unfold PoolingValidate
    rw [if_pos (by omega)]
    rfl
  · intro h
    unfold PoolingValidate
    by_cases hstride : pcfg.horizontalSubsample > pcfg.windowWidth ∨ pcfg.verticalSubsample > pcfg.windowHeight
    · rw [if_pos hstride]
      rfl
    · rw [if_neg hstride]
      unfold PoolingInferImageDims
      rw [if_pos (by omega)]
      rfl

/-- Witness for C7: concrete rejected configurations for each of the five
error conditions (oversized stride and undersized input for both node
kinds, and a 2 x 5 weight operand where `[4, 12]` was expected). -/
theorem validation_rejects_bad_configs_witness :
    isError (ConvolutionValidate ⟨2, 2, 3, 1, false, 0, ⟨4, 4, 3⟩, ⟨1, 1, 4⟩⟩ ⟨4, 4, 3⟩
      "W" "conv" 4 12 48 8 true) = true
    ∧ isError (ConvolutionValidate ⟨2, 2, 1, 1, false, 0, ⟨1, 4, 3⟩, ⟨1, 1, 4⟩⟩ ⟨1, 4, 3⟩
      "W" "conv" 4 12 12 8 true) = true
    ∧ ConvolutionValidate ⟨2, 2, 1, 1, false, 0, ⟨4, 4, 3⟩, ⟨1, 1, 4⟩⟩ ⟨4, 4, 3⟩
      "W" "conv" 2 5 48 8 true = .error (.weightDimsError "W" 4 12)
    ∧ isError (PoolingValidate ⟨2, 2, 3, 1⟩ ⟨4, 4, 3⟩ "pool" 48 8 true) = true
    ∧ isError (PoolingValidate ⟨2, 2, 1, 1⟩ ⟨1, 4, 3⟩ "pool" 12 8 true) = true :=
  ⟨(validation_rejects_bad_configs ⟨2, 2, 3, 1, false, 0, ⟨4, 4, 3⟩, ⟨1, 1, 4⟩⟩ ⟨2, 2, 2, 2⟩
      ⟨4, 4, 3⟩ ⟨4, 4, 3⟩ "W" "conv" "pool" 4 12 48 8 48 8 true).1 (by decide),
   (validation_rejects_bad_configs ⟨2, 2, 1, 1, false, 0, ⟨1, 4, 3⟩, ⟨1, 1, 4⟩⟩ ⟨2, 2, 2, 2⟩
      ⟨1, 4, 3⟩ ⟨4, 4, 3⟩ "W" "conv" "pool" 4 12 12 8 12 8 true).2.1 (by decide),
   (validation_rejects_bad_configs ⟨2, 2, 1, 1, false, 0, ⟨4, 4, 3⟩, ⟨1, 1, 4⟩⟩ ⟨2, 2, 2, 2⟩
      ⟨4, 4, 3⟩ ⟨4, 4, 3⟩ "W" "conv" "pool" 2 5 48 8 48 8 true).2.2.1
      (by decide) (by decide) (by decide) (by decide) rfl (by decide) (by decide),
   (validation_rejects_bad_configs ⟨2, 2, 1, 1, false, 0, ⟨4, 4, 3⟩, ⟨1, 1, 4⟩⟩ ⟨2, 2, 3, 1⟩
      ⟨4, 4, 3⟩ ⟨4, 4, 3⟩ "W" "conv" "pool" 4 12 48 8 48 8 true).2.2.2.1 (by decide),
   (validation_rejects_bad_configs ⟨2, 2, 1, 1, false, 0, ⟨4, 4, 3⟩, ⟨1, 1, 4⟩⟩ ⟨2, 2, 1, 1⟩
      ⟨4, 4, 3⟩ ⟨1, 4, 3⟩ "W" "conv" "pool" 4 12 48 8 48 8 true).2.2.2.2 (by decide)⟩

end CNTKConv
